import Mathlib

/-!
Verification of the session-driver core of `gowin_mcp_server.py`.

The file embeds the program shallowly:
* the Stream Scanner (`GowinProcess.read_output`) works character by
  character over `List Char`;
* the Session Driver state (`GowinProcess`) is a record, and the stateful
  methods (`get_output`, `send_command`, `stop_gowin`, `start_gowin`)
  are explicit state-passing functions.  The behaviour of the outside
  world (the child process, the background thread, exceptions raised by
  the OS) is passed in as an explicit environment record, one field per
  source of nondeterminism in the source.
-/

namespace Gowin

/-! ### Stream Scanner (`GowinProcess.read_output`) -/

/-- The prompt marker `"% "` the scanner searches for. -/
def promptMarker : List Char := ['%', ' ']

/-- The function `splitAtMarker m l` models Python's
`idx = l.index(m) + len(m); (l[:idx], l[idx:])`: it finds the first
occurrence of `m` in `l` and returns the prefix that ends immediately
after that occurrence together with the remainder; `none` when `m` does
not occur (`m in l` is false). -/
def splitAtMarker (m : List Char) : List Char → Option (List Char × List Char)
  | [] => none
  | c :: cs =>
    if m.isPrefixOf (c :: cs) then
      some (m, (c :: cs).drop m.length)
    else
      match splitAtMarker m cs with
      | some (p, r) => some (c :: p, r)
      | none => none

/-- Python's `"m in l"` membership test. -/
def containsMarker (m l : List Char) : Bool :=
  (splitAtMarker m l).isSome

/-- State of the scanner: the accumulated fragment `buf`, the shared
output buffer, and the prompt event. -/
structure ScanState where
  buf : List Char
  buffer : List (List Char)
  promptReady : Bool
  deriving Repr, DecidableEq

/-- One iteration of the `while` loop of `read_output` for a
successfully read character `ch` (the loop body after `ch = stdout.read(1)`
returned a non-empty string). -/
def readStep (s : ScanState) (ch : Char) : ScanState :=
  let buf := s.buf ++ [ch]
  if ch = '\n' then
    { buf := [], buffer := s.buffer ++ [buf], promptReady := s.promptReady }
  else
    match splitAtMarker promptMarker buf with
    | some (toEmit, rest) =>
        { buf := rest, buffer := s.buffer ++ [toEmit], promptReady := true }
    | none =>
        { s with buf := buf }

/-- Run the scanner loop over a finite stream of characters. -/
def runScanner (s : ScanState) : List Char → ScanState
  | [] => s
  | c :: cs => runScanner (readStep s c) cs

/-- End-of-stream handling (`if ch == "": if buf: append; break` and the
trailing `if buf:` leftover flush): the partial fragment is flushed only
when non-empty. -/
def flushEOF (s : ScanState) : ScanState :=
  if s.buf = [] then s
  else { s with buf := [], buffer := s.buffer ++ [s.buf] }

/-- The diagnostic chunk appended by the `except` clause of
`read_output` (with the exception text abstracted). -/
def readerErrorChunk (e : List Char) : List Char :=
  '\n' :: ('[' :: 'R' :: 'e' :: 'a' :: 'd' :: 'e' :: 'r' :: ' ' ::
    'e' :: 'r' :: 'r' :: 'o' :: 'r' :: ':' :: ' ' :: (e ++ [']', '\n']))

/-! ### Session Driver state (`GowinProcess`) -/

/-- Result of `process.poll()`: a live process handle or an exited one. -/
inductive ProcState where
  | running
  | exited (code : Int)
  deriving Repr, DecidableEq

/-- The mutable fields of `GowinProcess` the claims are about:
`self.process`, `self.output_buffer`, `self.prompt_ready`. -/
structure GowinState where
  process : Option ProcState
  outputBuffer : List String
  promptReady : Bool
  deriving Repr, DecidableEq

/-- Method `GowinProcess.is_running`:
`self.process is not None and self.process.poll() is None`. -/
def isRunning (st : GowinState) : Bool :=
  match st.process with
  | some .running => true
  | _ => false

/-- Method `GowinProcess.get_output`: drain — return the concatenation of the
buffered chunks and clear the buffer. -/
def getOutput (st : GowinState) : String × GowinState :=
  (String.join st.outputBuffer, { st with outputBuffer := [] })

/-- The background thread appending chunks to the buffer
(`self.output_buffer.append(...)` under the lock, in emission order). -/
def appendChunks (st : GowinState) (L : List String) : GowinState :=
  { st with outputBuffer := st.outputBuffer ++ L }

/-! ### `GowinProcess.send_command` -/

/-- The two exceptions `send_command` raises (`raise RuntimeError(...)`),
with the messages of the source. -/
inductive SendError where
  | notRunning
  | writeFailed (msg : String)
  deriving Repr, DecidableEq

/-- The RuntimeError message text of each `SendError`. -/
def SendError.message : SendError → String
  | .notRunning => "Gowin process is not running. Start it first."
  | .writeFailed msg => "Error sending command: " ++ msg

/-- External behaviour during one `send_command` call: whether the write
to `stdin` raises, the chunks the Stream Scanner flushes into the buffer
between the pre-send drain and the moment `send_command` reads the
buffer back, and whether `prompt_ready.wait(timeout)` observed the
prompt within the timeout. -/
structure SendEnv where
  writeError : Option String
  flushed : List String
  promptSeen : Bool
  deriving Repr, DecidableEq

/-- The advisory appended on timeout:
`"\n[Warning: Command may still be running (timeout)]"`. -/
def timeoutAdvisory : String :=
  "\n[Warning: Command may still be running (timeout)]"

/-- Method `GowinProcess.send_command(command, wait_for_prompt, timeout)`:
check `is_running`; clear the prompt event; drain and discard the stale
buffer; write the command (a failure raises `writeFailed`); then either
wait on the prompt event up to the timeout (appending the advisory when
it expires) or sleep the grace period, and return a final drain. -/
def sendCommand (st : GowinState) (env : SendEnv) (waitForPrompt : Bool) :
    Except SendError String × GowinState :=
  if ¬ isRunning st then (.error .notRunning, st)
  else
    let st1 : GowinState := { st with promptReady := false }
    let st2 := (getOutput st1).2
    match env.writeError with
    | some msg => (.error (.writeFailed msg), st2)
    | none =>
      let st3 : GowinState :=
        { appendChunks st2 env.flushed with promptReady := env.promptSeen }
      if waitForPrompt ∧ ¬ env.promptSeen then
        let (out, st4) := getOutput st3
        (.ok (out ++ timeoutAdvisory), st4)
      else
        let (out, st4) := getOutput st3
        (.ok out, st4)

/-! ### `stop_gowin` -/

/-- External behaviour during one `stop_gowin` call: whether the
`send_command("exit", ...)` raises, whether each `process.wait(timeout=2)`
expires, and whether `terminate()` / `kill()` raise. -/
structure StopEnv where
  sendExitError : Option String
  wait1TimesOut : Bool
  terminateRaises : Bool
  wait2TimesOut : Bool
  killRaises : Bool
  flushed : List String
  deriving Repr, DecidableEq

/-- The escalation actions `stop_gowin` requests of the OS process, in
order, for bookkeeping of which stage ran. -/
inductive StopAction where
  | sentExit
  | waited
  | terminated
  | killed
  deriving Repr, DecidableEq

/-- The stages of the `try`/`except subprocess.TimeoutExpired` ladder of
`stop_gowin` that runs inside the outer `try`, given the environment:
which actions are attempted.  An exception anywhere falls to the outer
`except`, which attempts one `kill()` and swallows its failure. -/
def stopStages (env : StopEnv) : List StopAction :=
  match env.sendExitError with
  | some _ => [.sentExit, .killed]
  | none =>
    if ¬ env.wait1TimesOut then [.sentExit, .waited]
    else if env.terminateRaises then [.sentExit, .waited, .terminated, .killed]
    else if ¬ env.wait2TimesOut then [.sentExit, .waited, .terminated, .waited]
    else if env.killRaises then
      [.sentExit, .waited, .terminated, .waited, .killed, .killed]
    else [.sentExit, .waited, .terminated, .waited, .killed]

/-- Tool `stop_gowin()`: no-op message when not running; otherwise
`send_command("exit", wait_for_prompt=False)` then the wait/terminate/kill
escalation, all failures caught; the `finally` clause sets
`gowin.process = None` and clears `prompt_ready` on every path, and the
fixed message `"Gowin process stopped."` is returned. -/
def stopGowin (st : GowinState) (env : StopEnv) :
    String × GowinState × List StopAction :=
  if ¬ isRunning st then
    ("Gowin process is not running.", st, [])
  else
    -- send_command("exit", wait_for_prompt=False): clears the prompt
    -- event, drains, writes, sleeps the grace period, drains again; its
    -- output is discarded and a raise is caught by the outer except.
    let sent := sendCommand st
      { writeError := env.sendExitError, flushed := env.flushed,
        promptSeen := false } false
    let st1 := sent.2
    let st2 : GowinState := { st1 with process := none, promptReady := false }
    ("Gowin process stopped.", st2, stopStages env)

/-! ### `start_gowin` -/

/-- Outcome of `subprocess.Popen(...)`: a spawned process or a raised
exception with its message. -/
inductive SpawnResult where
  | ok
  | fail (msg : String)
  deriving Repr, DecidableEq

/-- External behaviour during one `start_gowin` call: the `Popen`
outcome, whether the initial 5-second prompt wait saw the scanner signal
the prompt, and the environment of the priming
`send_command("set tcl_interactive 1", ...)`. -/
structure StartEnv where
  spawn : SpawnResult
  initialPromptSeen : Bool
  primingEnv : SendEnv
  deriving Repr, DecidableEq

/-- Tool `start_gowin()`: early "already running" status; `Popen` failure
resets `gowin.process = None` and returns an error message; otherwise the
reader thread is started (the prompt event is cleared and may be set
again by the scanner during the initial wait) and the priming command is
sent, a raise from it being caught into a status message. -/
def startGowin (st : GowinState) (env : StartEnv) : String × GowinState :=
  if isRunning st then
    ("Gowin process is already running.", st)
  else
    match env.spawn with
    | .fail msg =>
        ("Error starting process: " ++ msg, { st with process := none })
    | .ok =>
        let st1 : GowinState :=
          { st with process := some .running,
                    promptReady := env.initialPromptSeen }
        match sendCommand st1 env.primingEnv true with
        | (.ok out, st2) =>
            ("Gowin process started successfully.\n" ++ out, st2)
        | (.error e, st2) =>
            ("Gowin process started, but error setting interactive mode: "
              ++ e.message, st2)

/-- Tool `get_process_status()`. -/
def getProcessStatus (st : GowinState) : String :=
  if isRunning st then "Gowin process is running."
  else "Gowin process is not running."

/-! #### Lemmas about `splitAtMarker` (moved below the definitions) -/

theorem splitAtMarker_append (m : List Char) :
    ∀ l p r, splitAtMarker m l = some (p, r) → p ++ r = l := by
  intro l
  induction l with
  | nil => intro p r h; simp [splitAtMarker] at h
  | cons c cs ih =>
    intro p r h
    simp only [splitAtMarker] at h
    by_cases hpre : m.isPrefixOf (c :: cs)
    · simp only [hpre, if_pos] at h
      obtain ⟨hp, hr⟩ := Prod.mk.injEq .. ▸ Option.some.inj h
      subst hp; subst hr
      have hpre' : m <+: (c :: cs) := List.isPrefixOf_iff_prefix.mp hpre
      obtain ⟨t, ht⟩ := hpre'
      rw [← ht, List.drop_left]
    · simp only [hpre, if_neg, Bool.false_eq_true, not_false_iff] at h
      cases hsub : splitAtMarker m cs with
      | none => rw [hsub] at h; exact absurd h (by simp)
      | some pr =>
        obtain ⟨p', r'⟩ := pr
        rw [hsub] at h
        obtain ⟨hp, hr⟩ := Prod.mk.injEq .. ▸ Option.some.inj h
        subst hp; subst hr
        simpa using ih p' r' hsub

theorem splitAtMarker_suffix (m : List Char) :
    ∀ l p r, splitAtMarker m l = some (p, r) → m <:+ p := by
  intro l
  induction l with
  | nil => intro p r h; simp [splitAtMarker] at h
  | cons c cs ih =>
    intro p r h
    simp only [splitAtMarker] at h
    by_cases hpre : m.isPrefixOf (c :: cs)
    · simp only [hpre, if_pos] at h
      obtain ⟨hp, _⟩ := Prod.mk.injEq .. ▸ Option.some.inj h
      subst hp
      exact List.suffix_refl m
    · simp only [hpre, if_neg, Bool.false_eq_true, not_false_iff] at h
      cases hsub : splitAtMarker m cs with
      | none => rw [hsub] at h; exact absurd h (by simp)
      | some pr =>
        obtain ⟨p', r'⟩ := pr
        rw [hsub] at h
        obtain ⟨hp, _⟩ := Prod.mk.injEq .. ▸ Option.some.inj h
        subst hp
        exact (ih p' r' hsub).trans (List.suffix_cons c p')

theorem splitAtMarker_first (m : List Char) :
    ∀ l p r, splitAtMarker m l = some (p, r) →
      ∀ q, m <:+ q → q <+: l → p.length ≤ q.length := by
  intro l
  induction l with
  | nil => intro p r h; simp [splitAtMarker] at h
  | cons c cs ih =>
    intro p r h q hsuf hpref
    simp only [splitAtMarker] at h
    by_cases hpre : m.isPrefixOf (c :: cs)
    · simp only [hpre, if_pos] at h
      obtain ⟨hp, _⟩ := Prod.mk.injEq .. ▸ Option.some.inj h
      subst hp
      exact hsuf.length_le
    · simp only [hpre, if_neg, Bool.false_eq_true, not_false_iff] at h
      cases hsub : splitAtMarker m cs with
      | none => rw [hsub] at h; exact absurd h (by simp)
      | some pr =>
        obtain ⟨p', r'⟩ := pr
        rw [hsub] at h
        obtain ⟨hp, _⟩ := Prod.mk.injEq .. ▸ Option.some.inj h
        subst hp
        -- q is a prefix of c :: cs ending in m: either m fits entirely
        -- at the head of c :: cs (excluded by hpre) or m ends inside a
        -- proper prefix q' of cs, so the inductive hypothesis applies.
        cases q with
        | nil =>
          have hm : m = [] := List.suffix_nil.mp hsuf
          subst hm
          exact absurd rfl hpre
        | cons d q' =>
          have hd : d = c := (List.cons_prefix_cons.mp hpref).1
          have hq' : q' <+: cs := (List.cons_prefix_cons.mp hpref).2
          cases q' with
          | nil =>
            exfalso
            apply hpre
            rw [List.isPrefixOf_iff_prefix]
            cases m with
            | nil => exact List.nil_prefix
            | cons x m' =>
              cases m' with
              | nil =>
                have hx : x = d := by
                  rcases hsuf with ⟨t, ht⟩
                  have htn : t = [] := by
                    cases t with
                    | nil => rfl
                    | cons a t' =>
                      exfalso
                      have hlen := congrArg List.length ht
                      simp only [List.length_append, List.length_cons,
                        List.length_nil] at hlen
                      omega
                  subst htn
                  simpa using ht
                rw [hx, hd]
                exact ⟨cs, rfl⟩
              | cons y m'' =>
                rcases hsuf with ⟨t, ht⟩
                have hlen := congrArg List.length ht
                simp only [List.length_append, List.length_cons,
                  List.length_nil] at hlen
                omega
          | cons e q'' =>
            rcases hsuf with ⟨t, ht⟩
            cases t with
            | nil =>
              exfalso
              simp only [List.nil_append] at ht
              apply hpre
              rw [List.isPrefixOf_iff_prefix, ht, hd]
              exact List.cons_prefix_cons.mpr ⟨rfl, hq'⟩
            | cons u t' =>
              have hsuf' : m <:+ (e :: q'') := by
                refine ⟨t', ?_⟩
                rw [List.cons_append] at ht
                exact (List.cons.injEq .. ▸ ht).2
              have hle := ih p' r' hsub (e :: q'') hsuf' hq'
              simp only [List.length_cons] at hle ⊢
              omega


/-! #### Scanner invariants -/

theorem readStep_chunks_nonempty (s : ScanState) (ch : Char)
    (h : ∀ c ∈ s.buffer, c ≠ []) :
    ∀ c ∈ (readStep s ch).buffer, c ≠ [] := by
  intro c hc
  unfold readStep at hc
  by_cases hnl : ch = '\n'
  · simp only [hnl, if_pos] at hc
    rcases List.mem_append.mp hc with hm | hm
    · exact h c hm
    · rw [List.mem_singleton.mp hm]
      simp
  · simp only [hnl, if_neg, if_false] at hc
    cases hsplit : splitAtMarker promptMarker (s.buf ++ [ch]) with
    | none =>
      rw [hsplit] at hc
      simp only at hc
      exact h c hc
    | some pr =>
      obtain ⟨p, r⟩ := pr
      rw [hsplit] at hc
      simp only at hc
      rcases List.mem_append.mp hc with hm | hm
      · exact h c hm
      · rw [List.mem_singleton.mp hm]
        have hsuf : promptMarker <:+ p := splitAtMarker_suffix _ _ _ _ hsplit
        intro hcn
        rw [hcn] at hsuf
        have := hsuf.length_le
        simp [promptMarker] at this

theorem runScanner_chunks_nonempty (input : List Char) :
    ∀ s : ScanState, (∀ c ∈ s.buffer, c ≠ []) →
      ∀ c ∈ (runScanner s input).buffer, c ≠ [] := by
  induction input with
  | nil => intro s h; exact h
  | cons a input ih =>
    intro s h
    exact ih (readStep s a) (readStep_chunks_nonempty s a h)

/-! #### Claim theorems -/

/-- C1: while running, with a successful write and the prompt observed
within the timeout, `send_command` returns exactly the concatenation, in
order, of the chunks the Stream Scanner flushed between the pre-write
drain and the prompt detection (`env.flushed`); the result does not
depend on the chunks buffered before the call (`st.outputBuffer` does
not occur in it), and the final drain leaves the buffer empty. -/
theorem send_returns_exactly_flushed (st : GowinState) (env : SendEnv)
    (hrun : isRunning st = true) (hw : env.writeError = none)
    (hp : env.promptSeen = true) :
    (sendCommand st env true).1 = .ok (String.join env.flushed) ∧
    (sendCommand st env true).2.outputBuffer = [] := by
  simp [sendCommand, hrun, hw, hp, getOutput, appendChunks]

/-- Witness for C1: a concrete running session with stale buffered
output `"old\n"`; the returned text is exactly the two flushed chunks,
the stale chunk excluded. -/
theorem send_returns_exactly_flushed_witness :
    (sendCommand ⟨some .running, ["old\n"], false⟩
        ⟨none, ["a\n", "b% "], true⟩ true).1 = .ok "a\nb% " ∧
    (sendCommand ⟨some .running, ["old\n"], false⟩
        ⟨none, ["a\n", "b% "], true⟩ true).2.outputBuffer = [] := by
  have h := send_returns_exactly_flushed ⟨some .running, ["old\n"], false⟩
    ⟨none, ["a\n", "b% "], true⟩ rfl rfl rfl
  simpa using h

/-- C2: when the accumulated fragment comes to contain the marker `"% "`
after a non-newline character is appended, the scanner flushes as one
chunk exactly the prefix ending immediately after the first occurrence
of the marker (the shortest prefix having the marker as a suffix),
retains the remainder as the new fragment, and sets the prompt event. -/
theorem prompt_split_flush (s : ScanState) (ch : Char) (p r : List Char)
    (hch : ch ≠ '\n')
    (hsplit : splitAtMarker promptMarker (s.buf ++ [ch]) = some (p, r)) :
    readStep s ch =
      { buf := r, buffer := s.buffer ++ [p], promptReady := true } ∧
    p ++ r = s.buf ++ [ch] ∧
    promptMarker <:+ p ∧
    (∀ q, promptMarker <:+ q → q <+: s.buf ++ [ch] → p.length ≤ q.length) := by
  refine ⟨?_, splitAtMarker_append _ _ _ _ hsplit,
    splitAtMarker_suffix _ _ _ _ hsplit,
    splitAtMarker_first _ _ _ _ hsplit⟩
  unfold readStep
  simp only [hch, if_neg, if_false, hsplit]

/-- Witness for C2: the fragment `"foo%"` receiving `' '` is flushed as
the single chunk `"foo% "`, the new fragment is empty, and the prompt
event is set. -/
theorem prompt_split_flush_witness :
    readStep ⟨['f', 'o', 'o', '%'], [], false⟩ ' ' =
      { buf := [], buffer := [['f', 'o', 'o', '%', ' ']],
        promptReady := true } := by
  have h := prompt_split_flush ⟨['f', 'o', 'o', '%'], [], false⟩ ' '
    ['f', 'o', 'o', '%', ' '] [] (by decide) (by decide)
  simpa using h.1

/-- Whether a `send_command` outcome is a raised exception
(`Except.error`, modelling `raise RuntimeError`). -/
def raised : Except SendError String × GowinState → Bool
  | (.error _, _) => true
  | (.ok _, _) => false

/-- Counterexample for C3: at the concrete not-running session, and at a
running session whose stdin write fails, `send_command` does not report
the failure as a structured status result of the operation — it raises
(`Except.error`, i.e. `raise RuntimeError` in the source), which aborts
the collaborator tool that called it. -/
theorem send_failures_not_status :
    raised (sendCommand ⟨none, [], false⟩ ⟨none, [], false⟩ true) = true ∧
    (sendCommand ⟨none, [], false⟩ ⟨none, [], false⟩ true).1 =
      .error .notRunning ∧
    raised (sendCommand ⟨some .running, [], false⟩
      ⟨some "EPIPE", [], false⟩ true) = true ∧
    (sendCommand ⟨some .running, [], false⟩
      ⟨some "EPIPE", [], false⟩ true).1 = .error (.writeFailed "EPIPE") := by
  refine ⟨rfl, rfl, rfl, rfl⟩

/-- C3 amended: the not-running and write-failure conditions are raised
as exceptions (`RuntimeError`) to the immediate caller rather than
returned as status results; not-running raises before any state change,
and a write failure raises after the prompt event was cleared and the
stale buffer drained. -/
theorem send_failures_raise (st : GowinState) (env : SendEnv) (w : Bool) :
    (isRunning st = false → sendCommand st env w = (.error .notRunning, st)) ∧
    (∀ msg, isRunning st = true → env.writeError = some msg →
      sendCommand st env w =
        (.error (.writeFailed msg),
         { st with promptReady := false, outputBuffer := [] })) := by
  constructor
  · intro h
    simp [sendCommand, h]
  · intro msg hrun hw
    simp [sendCommand, hrun, hw, getOutput]

/-- Witness for C3's amended theorem at concrete states. -/
theorem send_failures_raise_witness :
    sendCommand ⟨none, ["x"], true⟩ ⟨none, [], false⟩ true =
      (.error .notRunning, ⟨none, ["x"], true⟩) ∧
    sendCommand ⟨some .running, ["x"], true⟩ ⟨some "EPIPE", [], false⟩ true =
      (.error (.writeFailed "EPIPE"), ⟨some .running, [], false⟩) := by
  refine ⟨(send_failures_raise ⟨none, ["x"], true⟩ ⟨none, [], false⟩ true).1 rfl,
    ?_⟩
  have h := (send_failures_raise ⟨some .running, ["x"], true⟩
    ⟨some "EPIPE", [], false⟩ true).2 "EPIPE" rfl rfl
  simpa using h

/-- C4: `stop_gowin` on a running session, whatever the outcome of each
escalation stage (exit write raising, waits timing out, terminate or
kill raising), always ends with the process handle cleared, the prompt
event reset and `is_running` false, and returns the stop message. -/
theorem stop_cleans_up (st : GowinState) (env : StopEnv)
    (hrun : isRunning st = true) :
    (stopGowin st env).2.1.process = none ∧
    (stopGowin st env).2.1.promptReady = false ∧
    isRunning (stopGowin st env).2.1 = false ∧
    (stopGowin st env).1 = "Gowin process stopped." := by
  unfold stopGowin
  rw [hrun]
  simp [isRunning]

/-- Witness for C4: a running session whose process ignores every stage
(exit write fails, kill raises) still ends cleared and not running. -/
theorem stop_cleans_up_witness :
    (stopGowin ⟨some .running, ["x"], true⟩
        ⟨some "EPIPE", true, true, true, true, []⟩).2.1.process = none ∧
    isRunning (stopGowin ⟨some .running, ["x"], true⟩
        ⟨some "EPIPE", true, true, true, true, []⟩).2.1 = false := by
  have h := stop_cleans_up ⟨some .running, ["x"], true⟩
    ⟨some "EPIPE", true, true, true, true, []⟩ rfl
  exact ⟨h.1, h.2.2.1⟩

/-- C5: a prompt-waiting `send_command` whose wait expires does not
raise: it returns `Except.ok` carrying the output drained so far with
the timeout advisory appended. -/
theorem send_timeout_returns_partial (st : GowinState) (env : SendEnv)
    (hrun : isRunning st = true) (hw : env.writeError = none)
    (hp : env.promptSeen = false) :
    (sendCommand st env true).1 =
      .ok (String.join env.flushed ++ timeoutAdvisory) ∧
    raised (sendCommand st env true) = false := by
  simp [sendCommand, hrun, hw, hp, getOutput, appendChunks, raised]

/-- Witness for C5: a timed-out send returns the partial chunk plus the
advisory text. -/
theorem send_timeout_returns_partial_witness :
    (sendCommand ⟨some .running, [], false⟩
        ⟨none, ["partial"], false⟩ true).1 =
      .ok ("partial" ++ timeoutAdvisory) := by
  have h := send_timeout_returns_partial ⟨some .running, [], false⟩
    ⟨none, ["partial"], false⟩ rfl rfl rfl
  simpa using h.1

/-- C6: one drain returns the concatenation of all buffered chunks and
empties the buffer; a second drain with no append in between returns the
empty string; after a drain, a later drain returns only chunks appended
since, so no chunk is returned by more than one drain. -/
theorem drain_exactly_once (st : GowinState) :
    (getOutput st).1 = String.join st.outputBuffer ∧
    (getOutput st).2.outputBuffer = [] ∧
    (getOutput (getOutput st).2).1 = "" ∧
    (∀ L, (getOutput (appendChunks (getOutput st).2 L)).1 = String.join L) := by
  refine ⟨rfl, rfl, rfl, fun L => ?_⟩
  simp [getOutput, appendChunks]

/-- C7: `send_command` with no live process fails with the not-running
condition before touching the process: the returned state is exactly the
input state — no drain, no prompt-event clear, no write happened. -/
theorem send_not_running_no_io (st : GowinState) (env : SendEnv) (w : Bool)
    (h : isRunning st = false) :
    sendCommand st env w = (.error .notRunning, st) := by
  simp [sendCommand, h]

/-- Witness for C7: a never-started session (handle absent, stale buffer
and prompt event) is returned unchanged with the not-running error. -/
theorem send_not_running_no_io_witness :
    sendCommand ⟨none, ["stale"], true⟩ ⟨none, ["x"], true⟩ true =
      (.error .notRunning, ⟨none, ["stale"], true⟩) :=
  send_not_running_no_io ⟨none, ["stale"], true⟩ ⟨none, ["x"], true⟩ true rfl

/-- Counterexample for C8: `stop_gowin` on a session whose process fails
every escalation stage — the exit write raises and even `kill()` raises —
returns exactly the same fixed message `"Gowin process stopped."` as a
fully successful stop: the failure is swallowed with no message about it
in the return value. -/
theorem stop_swallows_failure :
    (stopGowin ⟨some .running, [], false⟩
        ⟨some "EPIPE", true, true, true, true, []⟩).1 =
      "Gowin process stopped." ∧
    (stopGowin ⟨some .running, [], false⟩
        ⟨some "EPIPE", true, true, true, true, []⟩).1 =
      (stopGowin ⟨some .running, [], false⟩
        ⟨none, false, false, false, false, []⟩).1 := by
  exact ⟨rfl, rfl⟩

/-- C8 amended: every operation returns a human-readable status or
output string on its non-raising paths, but `stop_gowin` does silently
swallow failures: whatever happens during the exit/terminate/kill
sequence, it returns one of its two fixed status strings and never
includes a message about a shutdown failure. -/
theorem operations_return_status (st : GowinState) (env : StopEnv) :
    ((stopGowin st env).1 = "Gowin process is not running." ∨
      (stopGowin st env).1 = "Gowin process stopped.") ∧
    (stopGowin st env).1 ≠ "" ∧
    getProcessStatus st ≠ "" := by
  unfold stopGowin getProcessStatus
  by_cases h : isRunning st
  · simp [h]
  · simp [h]

/-- C9: when `Popen` raises during `start_gowin`, the process handle is
reset to absent, the returned message names the failure, `is_running` is
false afterwards, and the buffer and prompt event are untouched. -/
theorem start_spawn_failure (st : GowinState) (env : StartEnv) (msg : String)
    (h : isRunning st = false) (hs : env.spawn = .fail msg) :
    startGowin st env =
      ("Error starting process: " ++ msg, { st with process := none }) ∧
    isRunning (startGowin st env).2 = false ∧
    (startGowin st env).2.outputBuffer = st.outputBuffer ∧
    (startGowin st env).2.promptReady = st.promptReady := by
  have hmain : startGowin st env =
      ("Error starting process: " ++ msg, { st with process := none }) := by
    unfold startGowin
    simp [h, hs]
  refine ⟨hmain, ?_, ?_, ?_⟩
  · rw [hmain]
    simp [isRunning]
  · rw [hmain]
  · rw [hmain]

/-- Witness for C9: a stopped session whose spawn raises `"ENOENT"`. -/
theorem start_spawn_failure_witness :
    startGowin ⟨none, ["x"], true⟩ ⟨.fail "ENOENT", false, ⟨none, [], false⟩⟩ =
      ("Error starting process: " ++ "ENOENT", ⟨none, ["x"], true⟩) ∧
    isRunning (startGowin ⟨none, ["x"], true⟩
      ⟨.fail "ENOENT", false, ⟨none, [], false⟩⟩).2 = false := by
  have h := start_spawn_failure ⟨none, ["x"], true⟩
    ⟨.fail "ENOENT", false, ⟨none, [], false⟩⟩ "ENOENT" rfl rfl
  exact ⟨h.1, h.2.1⟩

/-- C10: starting from a buffer of non-empty chunks, every chunk the
scanner ever appends — newline flushes, prompt flushes, and the guarded
end-of-stream flush — is non-empty; the newline flush carries at least
the terminator, the prompt flush ends with the two-character marker, and
the reader-error diagnostic chunk is non-empty too. -/
theorem scanner_chunks_nonempty (s : ScanState) (input : List Char)
    (h : ∀ c ∈ s.buffer, c ≠ []) :
    (∀ c ∈ (flushEOF (runScanner s input)).buffer, c ≠ []) ∧
    (∀ s' : ScanState, readStep s' '\n' =
      { buf := [], buffer := s'.buffer ++ [s'.buf ++ ['\n']],
        promptReady := s'.promptReady }) ∧
    (∀ p r, splitAtMarker promptMarker (s.buf ++ input) = some (p, r) →
      promptMarker <:+ p) ∧
    (∀ e, readerErrorChunk e ≠ []) := by
  refine ⟨?_, ?_, ?_, ?_⟩
  · intro c hc
    have hrun := runScanner_chunks_nonempty input s h
    unfold flushEOF at hc
    by_cases hbuf : (runScanner s input).buf = []
    · simp only [hbuf, if_pos] at hc
      exact hrun c hc
    · simp only [hbuf, if_neg, if_false] at hc
      rcases List.mem_append.mp hc with hm | hm
      · exact hrun c hm
      · rw [List.mem_singleton.mp hm]
        exact hbuf
  · intro s'
    unfold readStep
    simp
  · intro p r hsplit
    exact splitAtMarker_suffix _ _ _ _ hsplit
  · intro e
    simp [readerErrorChunk]

/-- Witness for C10: a run over `"a\nb% c"` ending at end-of-stream
produces no empty chunk. -/
theorem scanner_chunks_nonempty_witness :
    [] ∉ (flushEOF (runScanner ⟨[], [], false⟩
      ['a', '\n', 'b', '%', ' ', 'c'])).buffer := by
  have h := scanner_chunks_nonempty ⟨[], [], false⟩
    ['a', '\n', 'b', '%', ' ', 'c'] (by intro c hc; simp at hc)
  intro hmem
  exact h.1 [] hmem rfl

end Gowin
